import Mathlib

/-!
Verification development for the core of the `obsidian-yolo` repository
(`src/core/mcp/mcpCoordinator.ts`): the `McpCoordinator` single-flight
lifecycle coordinator and the `OpenAIMessageAdapter` request/response
translator.  The TypeScript is shallowly embedded: JavaScript objects
become Lean structures, `undefined`/absent fields become `Option`,
thrown exceptions become `Except`, and the cooperative async scheduling
of the coordinator becomes an explicit step model in which each
synchronous segment of `getMcpManager` (up to its `await` suspension
point) is one Lean function.
-/

/-- A JSON-like value, used for fields the adapter passes through opaquely
(tool specs, sampling parameters, vendor-extension bags, ...).  Objects are
association lists with unique keys, as JavaScript object literals are. -/
inductive JValue where
  | str (s : String)
  | num (n : Int)
  | boolean (b : Bool)
  | null
  | arr (xs : List JValue)
  | obj (fields : List (String × JValue))
  deriving Repr

/-- `typeof v === 'object' && v` in JavaScript: arrays and (non-null)
objects pass, strings/numbers/booleans/null do not. -/
def JValue.isObjVal : JValue → Bool
  | .arr _ => true
  | .obj _ => true
  | _ => false

namespace McpCoordinator

/-!
## Coordinator model

`McpCoordinator.getMcpManager` (mcpCoordinator.ts lines 28-89) runs
synchronously from its entry until it either returns or reaches the
`await this.mcpManager.initialize()` suspension inside the immediately
invoked async constructor function.  The model below makes that
synchronous segment one step function.  Managers and init promises are
identified by the numeric order of their construction: the IIFE started
for instance `i` produces the promise with the same id `i`, so
`mcpManagerInitPromise = some i` stores the promise of instance `i`'s
construction attempt.
-/

/-- Coordinator fields (`this.mcpManager`, `this.mcpManagerInitPromise`)
plus event-loop bookkeeping: `nextInst` numbers constructed managers,
`pendingInit` is the instance whose `initialize()` call is currently
suspended at the `await`, and `initializedInsts` records which instances
have completed `initialize()` successfully. -/
structure CoordState where
  mcpManager : Option Nat := none
  mcpManagerInitPromise : Option Nat := none
  nextInst : Nat := 0
  pendingInit : Option Nat := none
  initializedInsts : List Nat := []
  deriving Repr, DecidableEq

/-- The freshly-constructed coordinator (both fields start `null`,
mcpCoordinator.ts lines 19-20). -/
def CoordState.init : CoordState := {}

/-- What one `getMcpManager()` call hands its caller when its synchronous
segment finishes: either the value of `this.mcpManager` (line 48 — the
caller's own promise resolves with that manager immediately), or the
promise stored in `this.mcpManagerInitPromise` (line 88 — the caller's
outcome is that promise's eventual settlement). -/
inductive AcquireRet where
  | inst (i : Nat)
  | promise (p : Nat)
  deriving Repr, DecidableEq

/-- The synchronous segment of `getMcpManager()` (lines 28-89).  If
`this.mcpManager` is set it is returned at once (line 44-49).  Otherwise,
if no init promise exists, the async IIFE (lines 55-81) runs
synchronously up to its `await`: it constructs a new `McpManager`,
assigns it to `this.mcpManager` (line 60), and suspends at
`await this.mcpManager.initialize()` (line 67); the resulting promise is
stored in `this.mcpManagerInitPromise` and returned (line 88).  If an
init promise already exists it is returned unchanged (lines 82-88). -/
def getMcpManager (s : CoordState) : AcquireRet × CoordState :=
  match s.mcpManager with
  | some i => (.inst i, s)
  | none =>
    match s.mcpManagerInitPromise with
    | some p => (.promise p, s)
    | none =>
      let i := s.nextInst
      (.promise i,
        { s with
            mcpManager := some i
            mcpManagerInitPromise := some i
            nextInst := s.nextInst + 1
            pendingInit := some i })

/-- Event: the suspended `initialize()` call completes successfully.  The
IIFE resumes after the `await` and returns `this.mcpManager` (line 71),
so the init promise settles with the current value of that field; the
completed instance is recorded as initialized.  Also yields the value the
init promise resolves with. -/
def initResolve (s : CoordState) : CoordState × Option Nat :=
  match s.pendingInit with
  | some i =>
    ({ s with pendingInit := none, initializedInsts := i :: s.initializedInsts },
     s.mcpManager)
  | none => (s, s.mcpManager)

/-- Event: the suspended `initialize()` call fails.  The `catch` block
(lines 72-80) sets `this.mcpManager = null` and
`this.mcpManagerInitPromise = null` and then rethrows, so the init
promise settles rejected after the fields are cleared. -/
def initReject (s : CoordState) : CoordState :=
  match s.pendingInit with
  | some _ =>
    { s with mcpManager := none, mcpManagerInitPromise := none, pendingInit := none }
  | none => s

/-- What a caller eventually observes from its `getMcpManager()` call. -/
inductive Outcome where
  | instance (i : Nat)
  | failure
  deriving Repr, DecidableEq

/-- Outcome of a call's return value in a run where the in-flight
`initialize()` rejects: a caller that was handed `this.mcpManager`
directly already had its own promise resolve with that instance, while a
caller holding the init promise observes the rejection. -/
def outcomeAfterReject : AcquireRet → Outcome
  | .inst i => .instance i
  | .promise _ => .failure

/-- `McpCoordinator.cleanup()` (lines 91-117), with the collaborator
teardown hook `McpManager.cleanup` modelled by the predicate
`teardownThrows` on instance ids (that hook's body is outside this
module).  If an instance exists its teardown runs first (line 105-110)
with no surrounding try/catch: when it throws, the exception propagates
and the clearing assignments (lines 111-112) are never reached.  The
returned `Bool` records whether `cleanup` threw. -/
def cleanup (teardownThrows : Nat → Bool) (s : CoordState) : Bool × CoordState :=
  match s.mcpManager with
  | some i =>
    if teardownThrows i then (true, s)
    else (false, { s with mcpManager := none, mcpManagerInitPromise := none })
  | none => (false, { s with mcpManager := none, mcpManagerInitPromise := none })

end McpCoordinator

namespace OpenAIMessageAdapter

/-!
## Adapter model

Embedding of `OpenAIMessageAdapter` (mcpCoordinator.ts lines 142-515).
Canonical request messages follow the shapes `parseRequestMessage`
destructures; absent/`undefined` object fields are `Option.none`, and a
field that can be `undefined`, `null` or a value is
`Option (Option _)` (`none` = absent/undefined, `some none` = null).
-/

/-- A content part of a canonical `user` message (`text` or `image_url`,
lines 421-429); the image payload is passed through opaquely. -/
inductive ReqContentPart where
  | text (t : String)
  | image_url (u : JValue)
  deriving Repr

/-- Canonical message content: a plain string or a content-part array. -/
inductive ReqContent where
  | str (s : String)
  | parts (l : List ReqContentPart)
  deriving Repr

/-- A canonical tool call carried by an `assistant` message or a `tool`
message (`{id, name, arguments}`); `arguments` may be absent, `null`, or
a JSON-encoded string. -/
structure ReqToolCall where
  id : String
  name : String
  arguments : Option (Option String) := none
  deriving Repr

/-- A canonical request message, by role (the four cases of
`parseRequestMessage`, lines 416-470). -/
inductive RequestMessage where
  | user (content : ReqContent)
  | assistant (content : ReqContent) (tool_calls : Option (List ReqToolCall))
  | system (content : ReqContent)
  | tool (content : String) (tool_call : ReqToolCall)
  deriving Repr

/-- The `Error`s thrown by `parseRequestMessage` (lines 435 and 452):
"Assistant message should be a string" and "System message should be a
string". -/
inductive ValidationError where
  | assistantContentNotString
  | systemContentNotString
  deriving Repr, DecidableEq

/-- A wire content part (lines 422-428: `text` kept, `image_url` kept). -/
inductive WireContentPart where
  | text (t : String)
  | image_url (u : JValue)
  deriving Repr

/-- Wire message content. -/
inductive WireContent where
  | str (s : String)
  | parts (l : List WireContentPart)
  deriving Repr

/-- A wire tool-call entry as emitted for assistant messages
(lines 440-447): `{id, function: {arguments, name}, type}` flattened. -/
structure WireToolCall where
  id : String
  arguments : String
  name : String
  type : String
  deriving Repr, DecidableEq

/-- A translated wire message (`ChatCompletionMessageParam`), by role.
An assistant message's `tool_calls` field is `none` when absent. -/
inductive WireMessage where
  | user (content : WireContent)
  | assistant (content : String) (tool_calls : Option (List WireToolCall))
  | system (content : String)
  | tool (content : String) (tool_call_id : String)
  deriving Repr

/-- The wire tool-call entry built from one canonical tool call
(lines 440-447): `arguments: toolCall.arguments ?? '{}'` defaults an
absent or null arguments string to "\x7b\x7d", `id` and `name` pass
through, and `type` is always `"function"`. -/
def toolCallParam (toolCall : ReqToolCall) : WireToolCall :=
  { id := toolCall.id
    arguments :=
      match toolCall.arguments with
      | some (some a) => a
      | _ => "\x7b\x7d"
    name := toolCall.name
    type := "function" }

/-- `parseRequestMessage` (lines 416-470): translates one canonical
message to its wire equivalent, throwing when an assistant or system
message carries a content-part array instead of a string. -/
def parseRequestMessage : RequestMessage → Except ValidationError WireMessage
  | .user content =>
    .ok (.user (match content with
      | .parts l =>
        .parts (l.map fun part =>
          match part with
          | .text t => .text t
          | .image_url u => .image_url u)
      | .str s => .str s))
  | .assistant content tool_calls =>
    match content with
    | .parts _ => .error .assistantContentNotString
    | .str s => .ok (.assistant s (tool_calls.map (List.map toolCallParam)))
  | .system content =>
    match content with
    | .parts _ => .error .systemContentNotString
    | .str s => .ok (.system s)
  | .tool content tool_call => .ok (.tool content tool_call.id)

/-- The vendor-extension "extra body" bag (`request.extra_body`,
lines 393-411): its `tools` key, if present, holds an arbitrary value
(only arrays are used), and `other` holds the remaining keys in order. -/
structure ExtraBody where
  tools : Option JValue := none
  other : List (String × JValue) := []
  deriving Repr

/-- The canonical `LLMRequest` as consumed by
`buildChatCompletionCreateParams` and `attachVendorExtensions`:
sampling parameters and pass-through fields are opaque optional values,
vendor-extension fields may be present with a non-object value (the code
checks `typeof === 'object'` before attaching them). -/
structure LLMRequest where
  model : String
  messages : List RequestMessage
  tools : Option (List JValue) := none
  tool_choice : Option JValue := none
  reasoning_effort : Option JValue := none
  web_search_options : Option JValue := none
  max_tokens : Option JValue := none
  temperature : Option JValue := none
  top_p : Option JValue := none
  frequency_penalty : Option JValue := none
  presence_penalty : Option JValue := none
  logit_bias : Option JValue := none
  prediction : Option JValue := none
  thinking : Option JValue := none
  thinking_config : Option JValue := none
  thinkingConfig : Option JValue := none
  reasoning : Option JValue := none
  extra_body : Option ExtraBody := none
  deriving Repr

/-- `stream_options: { include_usage: true }` (lines 333-335). -/
structure StreamOptions where
  include_usage : Bool
  deriving Repr, DecidableEq

/-- The wire payload (`ChatCompletionCreateParams` plus the extra keys
`attachVendorExtensions` may add).  `none` on an optional field means the
key is omitted from the serialized payload (an `undefined` JavaScript
property is dropped by JSON serialization). -/
structure WireParams where
  model : String
  tools : Option (List JValue)
  tool_choice : Option JValue
  reasoning_effort : Option JValue
  web_search_options : Option JValue
  messages : List WireMessage
  max_tokens : Option JValue
  temperature : Option JValue
  top_p : Option JValue
  frequency_penalty : Option JValue
  presence_penalty : Option JValue
  logit_bias : Option JValue
  prediction : Option JValue
  stream : Option Bool := none
  stream_options : Option StreamOptions := none
  thinking : Option JValue := none
  thinking_config : Option JValue := none
  reasoning : Option JValue := none
  extra_body : Option (List (String × JValue)) := none
  deriving Repr

/-- Lines 365-371: attach `request.thinking` when present and
object-valued. -/
def attachThinking (params : WireParams) (request : LLMRequest) : WireParams :=
  match request.thinking with
  | some v => if v.isObjVal then { params with thinking := some v } else params
  | none => params

/-- Lines 372-380: the `thinkingConfig` disjunction — the snake-case
`thinking_config` when present and object-valued, else the camel-case
`thinkingConfig` when present and object-valued. -/
def resolvedThinkingConfig (request : LLMRequest) : Option JValue :=
  match request.thinking_config with
  | some v =>
    if v.isObjVal then some v
    else
      match request.thinkingConfig with
      | some w => if w.isObjVal then some w else none
      | none => none
  | none =>
    match request.thinkingConfig with
    | some w => if w.isObjVal then some w else none
    | none => none

/-- Lines 381-383: attach the resolved thinking config under the
snake-case key. -/
def attachThinkingConfig (params : WireParams) (request : LLMRequest) : WireParams :=
  match resolvedThinkingConfig request with
  | some v => { params with thinking_config := some v }
  | none => params

/-- Lines 385-391: attach `request.reasoning` when present and
object-valued. -/
def attachReasoningObj (params : WireParams) (request : LLMRequest) : WireParams :=
  match request.reasoning with
  | some v => if v.isObjVal then { params with reasoning := some v } else params
  | none => params

/-- Lines 402-407: when the extra-body bag's `tools` key holds an array
it replaces the payload's `tools` and the `tool_choice` key is deleted;
any other (or absent) `tools` value leaves the payload unchanged. -/
def overrideTools (params : WireParams) (eb : ExtraBody) : WireParams :=
  match eb.tools with
  | some (.arr xs) => { params with tools := some xs, tool_choice := none }
  | _ => params

/-- Lines 393-411: when `request.extra_body` is present (it is an object
by construction here), destructure out `tools`, apply the tool override,
and store the remaining keys under the payload's `extra_body` key when
there is at least one. -/
def attachExtraBody (params : WireParams) (request : LLMRequest) : WireParams :=
  match request.extra_body with
  | none => params
  | some eb =>
    if eb.other.length > 0 then
      { overrideTools params eb with extra_body := some eb.other }
    else overrideTools params eb

/-- `attachVendorExtensions` (lines 359-414): the sequence of mutations
the source applies to the `mutable` params object — `thinking`, then
`thinking_config`/`thinkingConfig`, then `reasoning`, then the
extra-body bag with its tool-override semantics. -/
def attachVendorExtensions (params : WireParams) (request : LLMRequest) : WireParams :=
  attachExtraBody
    (attachReasoningObj (attachThinkingConfig (attachThinking params request) request)
      request)
    request

/-- The `tool_call_id` of a translated message when it is a `tool`
message. -/
def toolIdOf : WireMessage → Option String
  | .tool _ tool_call_id => some tool_call_id
  | _ => none

/-- The `tool_call_id` values present among translated `tool` messages
(lines 269-273: `new Set(parsedMessages.filter(role tool).map(tool_call_id))`). -/
def wireToolIds (messages : List WireMessage) : List String :=
  messages.filterMap toolIdOf

/-- The tool-call integrity repair applied to one translated message
(lines 275-286): an assistant message whose `tool_calls` is an array
keeps only the entries whose `id` is among `toolIds`; when none survive
the `tool_calls` key is deleted.  Other messages are untouched. -/
def repairToolCalls (toolIds : List String) : WireMessage → WireMessage
  | .assistant content (some tool_calls) =>
    let filtered := tool_calls.filter fun tc => toolIds.contains tc.id
    if filtered.length > 0 then .assistant content (some filtered)
    else .assistant content none
  | m => m

/-- The `params` object literal built on lines 316-336 (streaming) and
lines 340-355 (non-streaming): every field is copied from the request by
name, `messages` is the repaired translation, and `stream: true` plus
`stream_options: {include_usage: true}` appear exactly in the streaming
case. -/
def baseParams (request : LLMRequest) (stream : Bool)
    (repaired : List WireMessage) : WireParams :=
  { model := request.model
    tools := request.tools
    tool_choice := request.tool_choice
    reasoning_effort := request.reasoning_effort
    web_search_options := request.web_search_options
    messages := repaired
    max_tokens := request.max_tokens
    temperature := request.temperature
    top_p := request.top_p
    frequency_penalty := request.frequency_penalty
    presence_penalty := request.presence_penalty
    logit_bias := request.logit_bias
    prediction := request.prediction
    stream := if stream then some true else none
    stream_options := if stream then some { include_usage := true } else none }

/-- `buildChatCompletionCreateParams` (lines 246-357): translates every
message (propagating the first translation error), repairs assistant
tool-call references against the tool ids present in the same request,
assembles the payload field by field from the request, and finishes with
`attachVendorExtensions`. -/
def buildChatCompletionCreateParams (request : LLMRequest) (stream : Bool) :
    Except ValidationError WireParams := do
  let parsedMessages ← request.messages.mapM parseRequestMessage
  let toolIds := wireToolIds parsedMessages
  let repaired := parsedMessages.map (repairToolCalls toolIds)
  return attachVendorExtensions (baseParams request stream repaired) request

end OpenAIMessageAdapter

namespace OpenAIMessageAdapter

/-!
## Reasoning extraction and streaming-chunk parsing
-/

/-- The reasoning-bearing fields of a wire message or delta object, as
probed by `extractReasoningContent` (lines 149-200).  Each field is
absent (`none`) or present with an arbitrary value. -/
structure RSource where
  reasoning_content : Option JValue := none
  reasoning : Option JValue := none
  reasoning_details : Option JValue := none
  deriving Repr

/-- The per-entry extraction of a `reasoning_details` element
(lines 176-192): a non-null object whose `type` is the string
`"reasoning.text"` with a string `text`, or `"reasoning.summary"` with a
string `summary`, yields that string; everything else yields null. -/
def extractDetailPart : JValue → Option String
  | .obj fields =>
    match fields.lookup "type" with
    | some (.str tag) =>
      if tag = "reasoning.text" then
        match fields.lookup "text" with
        | some (.str t) => some t
        | _ => none
      else if tag = "reasoning.summary" then
        match fields.lookup "summary" with
        | some (.str t) => some t
        | _ => none
      else none
    | _ => none
  | _ => none

/-- `extractReasoningContent` (lines 149-200): returns
`reasoning_content` when it is string-valued, else `reasoning` when it
is string-valued, else — when `reasoning_details` is an array — the
`'\n'`-join of the non-null, non-empty per-entry extractions (the
`filter(Boolean)` on line 193 drops empty strings as well as nulls)
provided at least one survives; otherwise nothing. -/
def extractReasoningContent (source : RSource) : Option String :=
  match source.reasoning_content with
  | some (.str s) => some s
  | _ =>
    match source.reasoning with
    | some (.str s) => some s
    | _ =>
      match source.reasoning_details with
      | some (.arr details) =>
        let parts := (details.filterMap extractDetailPart).filter fun part => part ≠ ""
        if parts.length > 0 then some (String.intercalate "\n" parts) else none
      | _ => none

/-- A streamed chunk's `choice.delta` object: the reasoning fields
(probed by `extractReasoningContent(choice.delta)`) plus `content`
(absent, null, or a string), `role` and `tool_calls`. -/
structure ChunkDelta extends RSource where
  content : Option (Option String) := none
  role : Option String := none
  tool_calls : Option JValue := none
  deriving Repr

/-- One choice of a wire `ChatCompletionChunk`: `finish_reason` may be
absent, null, or a string. -/
structure ChunkChoice where
  finish_reason : Option (Option String) := none
  delta : ChunkDelta
  deriving Repr

/-- A wire streaming chunk (`ChatCompletionChunk`). -/
structure ChatCompletionChunk where
  id : String
  choices : List ChunkChoice
  created : Int
  model : String
  system_fingerprint : Option String := none
  usage : Option (Option JValue) := none
  deriving Repr

/-- An always-present field whose value is either null or `α` — the
field exists by construction, only its value varies. -/
inductive NullOr (α : Type) where
  | null
  | val (a : α)
  deriving Repr, DecidableEq

/-- A parsed fragment's delta (lines 501-506): `content` is made
explicitly null when missing (`?? null`), `reasoning` is the extraction
result, `role` and `tool_calls` pass through. -/
structure StreamDelta where
  content : NullOr String
  reasoning : Option String
  role : Option String
  tool_calls : Option JValue
  deriving Repr

/-- A parsed fragment's choice (lines 499-507): `finish_reason` is an
always-present field, null unless the chunk carried a string
(`choice.finish_reason ?? null`). -/
structure StreamChoice where
  finish_reason : NullOr String
  delta : StreamDelta
  deriving Repr

/-- The canonical streaming fragment (`LLMResponseStreaming`). -/
structure LLMResponseStreaming where
  id : String
  choices : List StreamChoice
  created : Int
  model : String
  object : String
  system_fingerprint : Option String
  usage : Option JValue
  deriving Repr

/-- The per-choice translation inside `parseStreamingResponseChunk`
(lines 499-507). -/
def parseChunkChoice (choice : ChunkChoice) : StreamChoice :=
  { finish_reason :=
      match choice.finish_reason with
      | some (some s) => .val s
      | _ => .null
    delta :=
      { content :=
          match choice.delta.content with
          | some (some s) => .val s
          | _ => .null
        reasoning := extractReasoningContent choice.delta.toRSource
        role := choice.delta.role
        tool_calls := choice.delta.tool_calls } }

/-- `parseStreamingResponseChunk` (lines 494-514): maps every choice
through `parseChunkChoice` and passes the envelope fields through
(`usage ?? undefined` drops an explicit null). -/
def parseStreamingResponseChunk (chunk : ChatCompletionChunk) : LLMResponseStreaming :=
  { id := chunk.id
    choices := chunk.choices.map parseChunkChoice
    created := chunk.created
    model := chunk.model
    object := "chat.completion.chunk"
    system_fingerprint := chunk.system_fingerprint
    usage :=
      match chunk.usage with
      | some (some u) => some u
      | _ => none }

end OpenAIMessageAdapter

/-!
## Claims about the lifecycle coordinator
-/

open McpCoordinator

/-- C1.  The claim says that while a construction is in flight every
further `getMcpManager` call returns the same pending future and that
all such callers observe the same outcome.  The code violates this:
line 60 assigns `this.mcpManager` before `await initialize()`, so a
second call issued while the first construction is in flight takes the
line 44 branch and is handed the manager object directly instead of the
pending init promise; when `initialize()` then rejects, the first caller
observes the failure while the second already received the instance.
This theorem evaluates the model on that two-call trace: no second
construction is started (`nextInst` stays 1), but the second call's
return is not the in-flight future, and the two outcomes diverge when
the construction fails. -/
theorem mcpCoordinator_inflight_acquire_bypasses_future :
    (getMcpManager CoordState.init).1 = .promise 0 ∧
    (getMcpManager (getMcpManager CoordState.init).2).1 = .inst 0 ∧
    (getMcpManager (getMcpManager CoordState.init).2).1 ≠ .promise 0 ∧
    (getMcpManager (getMcpManager CoordState.init).2).2.nextInst = 1 ∧
    outcomeAfterReject (getMcpManager CoordState.init).1 ≠
      outcomeAfterReject (getMcpManager (getMcpManager CoordState.init).2).1 := by
  decide

/-- C3.  The claim says no caller — including one that calls acquire
while the failed construction is still in flight — ever observes a
partially-constructed instance.  Because line 60 assigns
`this.mcpManager` before `await initialize()`, a call issued while the
first construction is in flight is handed instance 0 even though that
instance's `initialize()` has not completed (it is still pending, and
`initializedInsts` is empty).  The reset-before-propagation and
fresh-retry parts do hold: after the rejection both fields are cleared
and a new call starts construction of a fresh instance 1. -/
theorem mcpCoordinator_inflight_caller_sees_uninitialized :
    (getMcpManager (getMcpManager CoordState.init).2).1 = .inst 0 ∧
    (getMcpManager (getMcpManager CoordState.init).2).2.pendingInit = some 0 ∧
    (getMcpManager (getMcpManager CoordState.init).2).2.initializedInsts = [] ∧
    (initReject (getMcpManager (getMcpManager CoordState.init).2).2).mcpManager = none ∧
    (initReject (getMcpManager (getMcpManager CoordState.init).2).2).mcpManagerInitPromise
      = none ∧
    (getMcpManager
      (initReject (getMcpManager (getMcpManager CoordState.init).2).2)).1 = .promise 1 := by
  decide

/-- C4 counterexample.  The claim says `cleanup()` clears the stored
instance and pending future and returns to `Uninitialized` in every
state, including when the teardown hook throws.  In a reachable `Ready`
state (one successful construction), a throwing `McpManager.cleanup`
makes `cleanup` itself throw before reaching the clearing assignments
(lines 111-112): both fields are still set afterwards. -/
theorem cleanup_throwing_teardown_not_cleared :
    (cleanup (fun _ => true)
        (initResolve (getMcpManager CoordState.init).2).1).1 = true ∧
    (cleanup (fun _ => true)
        (initResolve (getMcpManager CoordState.init).2).1).2.mcpManager = some 0 ∧
    (cleanup (fun _ => true)
        (initResolve (getMcpManager CoordState.init).2).1).2.mcpManagerInitPromise
      = some 0 := by
  decide

/-- C4 (amended): `cleanup()` clears the stored instance and the pending
future and returns the coordinator to `Uninitialized` whenever no
instance exists or the teardown hook of the existing instance returns
normally — in particular on a never-acquired coordinator (where it never
throws) and on repeated calls; but when the teardown hook throws, the
exception propagates out of `cleanup()` and the instance and pending
future are left in place. -/
theorem cleanup_total_amended (teardownThrows : Nat → Bool) (s : CoordState) :
    (∀ i, s.mcpManager = some i → teardownThrows i = false →
      cleanup teardownThrows s =
        (false, { s with mcpManager := none, mcpManagerInitPromise := none })) ∧
    (s.mcpManager = none →
      cleanup teardownThrows s =
        (false, { s with mcpManager := none, mcpManagerInitPromise := none })) ∧
    (∀ i, s.mcpManager = some i → teardownThrows i = true →
      cleanup teardownThrows s = (true, s)) ∧
    (cleanup teardownThrows CoordState.init).1 = false ∧
    (cleanup teardownThrows (cleanup teardownThrows CoordState.init).2).1 = false := by
  refine ⟨?_, ?_, ?_, ?_, ?_⟩
  · intro i hi ht
    simp [cleanup, hi, ht]
  · intro h
    simp [cleanup, h]
  · intro i hi ht
    simp [cleanup, hi, ht]
  · rfl
  · rfl

/-- Witness for `cleanup_total_amended`: applied to a concrete `Ready`
state whose teardown does not throw, cleanup succeeds and clears both
fields. -/
theorem cleanup_total_amended_witness :
    cleanup (fun _ => false)
        { mcpManager := some 0, mcpManagerInitPromise := some 0, nextInst := 1,
          pendingInit := none, initializedInsts := [0] } =
      (false,
        { mcpManager := none, mcpManagerInitPromise := none, nextInst := 1,
          pendingInit := none, initializedInsts := [0] }) :=
  (cleanup_total_amended (fun _ => false)
      { mcpManager := some 0, mcpManagerInitPromise := some 0, nextInst := 1,
        pendingInit := none, initializedInsts := [0] }).1 0 rfl rfl

/-!
## Claims about the adapter: request building
-/

open OpenAIMessageAdapter

/-!
## Claims about the adapter: request building
-/

open OpenAIMessageAdapter

/-- `attachThinking` either leaves the payload unchanged or writes only
its `thinking` key. -/
theorem attachThinking_cases (params : WireParams) (request : LLMRequest) :
    attachThinking params request = params ∨
    ∃ v, attachThinking params request = { params with thinking := some v } := by
  unfold attachThinking
  cases request.thinking with
  | none => exact .inl rfl
  | some v =>
    cases hv : v.isObjVal
    · exact .inl (by simp [hv])
    · exact .inr ⟨v, by simp [hv]⟩

/-- `attachThinkingConfig` either leaves the payload unchanged or writes
only its `thinking_config` key. -/
theorem attachThinkingConfig_cases (params : WireParams) (request : LLMRequest) :
    attachThinkingConfig params request = params ∨
    ∃ v, attachThinkingConfig params request
      = { params with thinking_config := some v } := by
  unfold attachThinkingConfig
  cases resolvedThinkingConfig request with
  | none => exact .inl rfl
  | some v => exact .inr ⟨v, rfl⟩

/-- `attachReasoningObj` either leaves the payload unchanged or writes
only its `reasoning` key. -/
theorem attachReasoningObj_cases (params : WireParams) (request : LLMRequest) :
    attachReasoningObj params request = params ∨
    ∃ v, attachReasoningObj params request = { params with reasoning := some v } := by
  unfold attachReasoningObj
  cases request.reasoning with
  | none => exact .inl rfl
  | some v =>
    cases hv : v.isObjVal
    · exact .inl (by simp [hv])
    · exact .inr ⟨v, by simp [hv]⟩

/-- `overrideTools` either leaves the payload unchanged or writes only
its `tools` and `tool_choice` keys. -/
theorem overrideTools_cases (params : WireParams) (eb : ExtraBody) :
    overrideTools params eb = params ∨
    ∃ xs, overrideTools params eb
      = { params with tools := some xs, tool_choice := none } := by
  unfold overrideTools
  rcases eb with ⟨t, o⟩
  cases t with
  | none => exact .inl rfl
  | some v => cases v <;> first | exact .inl rfl | exact .inr ⟨_, rfl⟩

/-- Shape of `attachExtraBody`: unchanged when no extra-body bag exists,
otherwise the tool override optionally followed by storing the remaining
keys. -/
theorem attachExtraBody_cases (params : WireParams) (request : LLMRequest) :
    attachExtraBody params request = params ∨
    ∃ eb, request.extra_body = some eb ∧
      (attachExtraBody params request = overrideTools params eb ∨
       attachExtraBody params request
         = { overrideTools params eb with extra_body := some eb.other }) := by
  unfold attachExtraBody
  cases h : request.extra_body with
  | none => exact .inl rfl
  | some eb =>
    by_cases ho : eb.other.length > 0
    · exact .inr ⟨eb, rfl, .inr (by simp [ho])⟩
    · exact .inr ⟨eb, rfl, .inl (by simp [ho])⟩

/-- The payload fields `attachVendorExtensions` never writes, related
pointwise. -/
def UntouchedFields (p q : WireParams) : Prop :=
  p.model = q.model ∧ p.messages = q.messages ∧
  p.reasoning_effort = q.reasoning_effort ∧
  p.web_search_options = q.web_search_options ∧ p.max_tokens = q.max_tokens ∧
  p.temperature = q.temperature ∧ p.top_p = q.top_p ∧
  p.frequency_penalty = q.frequency_penalty ∧
  p.presence_penalty = q.presence_penalty ∧ p.logit_bias = q.logit_bias ∧
  p.prediction = q.prediction ∧ p.stream = q.stream ∧
  p.stream_options = q.stream_options

theorem UntouchedFields.rfl (p : WireParams) : UntouchedFields p p :=
  ⟨by rfl, by rfl, by rfl, by rfl, by rfl, by rfl, by rfl, by rfl, by rfl, by rfl,
   by rfl, by rfl, by rfl⟩

theorem UntouchedFields.trans {p q r : WireParams}
    (h1 : UntouchedFields p q) (h2 : UntouchedFields q r) : UntouchedFields p r := by
  obtain ⟨a1, a2, a3, a4, a5, a6, a7, a8, a9, a10, a11, a12, a13⟩ := h1
  obtain ⟨b1, b2, b3, b4, b5, b6, b7, b8, b9, b10, b11, b12, b13⟩ := h2
  exact ⟨a1.trans b1, a2.trans b2, a3.trans b3, a4.trans b4, a5.trans b5,
    a6.trans b6, a7.trans b7, a8.trans b8, a9.trans b9, a10.trans b10,
    a11.trans b11, a12.trans b12, a13.trans b13⟩

theorem attachExtraBody_untouched (params : WireParams) (request : LLMRequest) :
    UntouchedFields (attachExtraBody params request) params := by
  rcases attachExtraBody_cases params request with h | ⟨eb, -, h | h⟩ <;> rw [h]
  · exact UntouchedFields.rfl params
  all_goals
    rcases overrideTools_cases params eb with h2 | ⟨xs, h2⟩ <;> rw [h2] <;>
      exact ⟨rfl, rfl, rfl, rfl, rfl, rfl, rfl, rfl, rfl, rfl, rfl, rfl, rfl⟩

/-- `attachVendorExtensions` preserves every payload field other than
`thinking`, `thinking_config`, `reasoning`, `tools`, `tool_choice` and
`extra_body`. -/
theorem attachVendorExtensions_untouched (params : WireParams) (request : LLMRequest) :
    UntouchedFields (attachVendorExtensions params request) params := by
  unfold attachVendorExtensions
  refine (attachExtraBody_untouched _ request).trans ?_
  refine UntouchedFields.trans ?_ (q := attachThinkingConfig (attachThinking params request) request) ?_
  · rcases attachReasoningObj_cases
        (attachThinkingConfig (attachThinking params request) request) request with
      h | ⟨v, h⟩ <;> rw [h]
    · exact UntouchedFields.rfl _
    · exact ⟨rfl, rfl, rfl, rfl, rfl, rfl, rfl, rfl, rfl, rfl, rfl, rfl, rfl⟩
  refine UntouchedFields.trans ?_ (q := attachThinking params request) ?_
  · rcases attachThinkingConfig_cases (attachThinking params request) request with
      h | ⟨v, h⟩ <;> rw [h]
    · exact UntouchedFields.rfl _
    · exact ⟨rfl, rfl, rfl, rfl, rfl, rfl, rfl, rfl, rfl, rfl, rfl, rfl, rfl⟩
  · rcases attachThinking_cases params request with h | ⟨v, h⟩ <;> rw [h]
    · exact UntouchedFields.rfl _
    · exact ⟨rfl, rfl, rfl, rfl, rfl, rfl, rfl, rfl, rfl, rfl, rfl, rfl, rfl⟩

/-- Inversion for `buildChatCompletionCreateParams`: a successful build
is exactly the vendor-extension attachment over the base params built
from the repaired translated messages. -/
theorem build_ok_iff (request : LLMRequest) (stream : Bool) (p : WireParams) :
    buildChatCompletionCreateParams request stream = .ok p ↔
      ∃ ms, request.messages.mapM parseRequestMessage = .ok ms ∧
        p = attachVendorExtensions
          (baseParams request stream (ms.map (repairToolCalls (wireToolIds ms))))
          request := by
  unfold buildChatCompletionCreateParams
  cases h : request.messages.mapM parseRequestMessage with
  | error e =>
    simp only [h, bind, Except.bind]
    constructor
    · intro hc; cases hc
    · rintro ⟨ms, hms, -⟩; cases hms
  | ok ms =>
    simp only [h, bind, Except.bind, pure, Except.pure, Except.ok.injEq]
    constructor
    · intro hc; exact ⟨ms, rfl, hc.symm⟩
    · rintro ⟨ms', hms', rfl⟩
      cases hms'
      rfl

/-- C7: every sampling parameter (`temperature`, `top_p`,
`frequency_penalty`, `presence_penalty`, `max_tokens`, `logit_bias`,
`prediction`) is mapped to the wire field of the same name; since the
wire field equals the request field, an absent (`none`) request
parameter is omitted (`none`, never null) in the payload. -/
theorem sampling_params_passthrough (request : LLMRequest) (stream : Bool)
    (p : WireParams) (h : buildChatCompletionCreateParams request stream = .ok p) :
    p.max_tokens = request.max_tokens ∧ p.temperature = request.temperature ∧
    p.top_p = request.top_p ∧ p.frequency_penalty = request.frequency_penalty ∧
    p.presence_penalty = request.presence_penalty ∧
    p.logit_bias = request.logit_bias ∧ p.prediction = request.prediction := by
  obtain ⟨ms, -, rfl⟩ := (build_ok_iff request stream p).mp h
  obtain ⟨-, -, -, -, h5, h6, h7, h8, h9, h10, h11, -, -⟩ :=
    attachVendorExtensions_untouched
      (baseParams request stream (ms.map (repairToolCalls (wireToolIds ms)))) request
  exact ⟨h5, h6, h7, h8, h9, h10, h11⟩

/-- Concrete request for the C7 witness: `temperature` set, everything
else absent. -/
def c7req : LLMRequest :=
  { model := "m", messages := [], temperature := some (.num 1) }

/-- The payload `buildChatCompletionCreateParams c7req false` produces. -/
def c7p : WireParams :=
  { model := "m", tools := none, tool_choice := none, reasoning_effort := none,
    web_search_options := none, messages := [], max_tokens := none,
    temperature := some (.num 1), top_p := none, frequency_penalty := none,
    presence_penalty := none, logit_bias := none, prediction := none }

/-- Witness for `sampling_params_passthrough` at a concrete request: the
set `temperature` passes through and the unset `top_p` is omitted. -/
theorem sampling_params_passthrough_witness :
    buildChatCompletionCreateParams c7req false = .ok c7p ∧
    c7p.temperature = some (.num 1) ∧ c7p.top_p = none :=
  ⟨rfl, (sampling_params_passthrough c7req false c7p rfl).2.1,
    (sampling_params_passthrough c7req false c7p rfl).2.2.1⟩

/-- Repair commutes with the tool-id projection: a repaired message is a
`tool` message with a given id exactly when the original was. -/
theorem toolIdOf_repair (ids : List String) (m : WireMessage) :
    toolIdOf (repairToolCalls ids m) = toolIdOf m := by
  cases m with
  | assistant content tool_calls =>
    cases tool_calls with
    | none => rfl
    | some tcs =>
      simp only [repairToolCalls]
      split <;> rfl
  | user c => rfl
  | system c => rfl
  | tool c i => rfl

/-- The repair step never changes which `tool` messages exist: the set
of `tool_call_id`s is the same before and after. -/
theorem wireToolIds_map_repair (ids : List String) (ms : List WireMessage) :
    wireToolIds (ms.map (repairToolCalls ids)) = wireToolIds ms := by
  simp only [wireToolIds]
  induction ms with
  | nil => rfl
  | cons m ms ih =>
    rw [List.map_cons, List.filterMap_cons, List.filterMap_cons, toolIdOf_repair, ih]

/-- Soundness of the repair step: any assistant message in the repaired
list that still carries a `tool_calls` array carries a non-empty one,
every entry of which references one of the given tool ids. -/
theorem repair_sound (ids : List String) (ms : List WireMessage)
    (m : WireMessage) (hm : m ∈ ms.map (repairToolCalls ids))
    (content : String) (tcs : List WireToolCall)
    (he : m = .assistant content (some tcs)) :
    tcs ≠ [] ∧ ∀ tc ∈ tcs, tc.id ∈ ids := by
  subst he
  obtain ⟨m0, hm0, hrep⟩ := List.mem_map.mp hm
  cases m0 with
  | assistant c tc0 =>
    cases tc0 with
    | none => simp [repairToolCalls] at hrep
    | some tcs0 =>
      simp only [repairToolCalls] at hrep
      by_cases hl : (tcs0.filter fun tc => ids.contains tc.id).length > 0
      · rw [if_pos hl] at hrep
        obtain ⟨-, htc⟩ := WireMessage.assistant.inj hrep
        obtain rfl := Option.some.inj htc
        refine ⟨?_, ?_⟩
        · intro hnil
          rw [hnil] at hl
          simp at hl
        · intro tc htc2
          have := List.mem_filter.mp htc2
          simpa using this.2
      · rw [if_neg hl] at hrep
        simp at hrep
  | user c => simp [repairToolCalls] at hrep
  | system c => simp [repairToolCalls] at hrep
  | tool c i => simp [repairToolCalls] at hrep

/-- C2: in any successfully built wire request, every assistant message
that still carries a `tool_calls` field carries a non-empty list every
entry of which has a matching `Tool` message `tool_call_id` in the same
payload; an assistant message whose filtered list would be empty has the
field omitted (`none`), never an empty list. -/
theorem buildWireRequest_tool_call_integrity (request : LLMRequest) (stream : Bool)
    (p : WireParams) (h : buildChatCompletionCreateParams request stream = .ok p) :
    ∀ m ∈ p.messages, ∀ content tcs,
      m = .assistant content (some tcs) →
        tcs ≠ [] ∧ ∀ tc ∈ tcs, tc.id ∈ wireToolIds p.messages := by
  obtain ⟨ms, -, rfl⟩ := (build_ok_iff request stream p).mp h
  obtain ⟨-, hmsg, -⟩ :=
    attachVendorExtensions_untouched
      (baseParams request stream (ms.map (repairToolCalls (wireToolIds ms)))) request
  intro m hmem content tcs he
  rw [hmsg] at hmem
  have hsound := repair_sound (wireToolIds ms) ms m hmem content tcs he
  refine ⟨hsound.1, ?_⟩
  intro tc htc
  rw [hmsg]
  show tc.id ∈ wireToolIds (ms.map (repairToolCalls (wireToolIds ms)))
  rw [wireToolIds_map_repair]
  exact hsound.2 tc htc

/-- Concrete request for the C2 witness: an assistant message with two
tool calls, only one of which (`id1`) has a matching tool message. -/
def c2req : LLMRequest :=
  { model := "m"
    messages :=
      [ .assistant (.str "a")
          (some [{ id := "id1", name := "f" }, { id := "id2", name := "g" }]),
        .tool "res" { id := "id1", name := "f" } ] }

/-- The payload `buildChatCompletionCreateParams c2req false` produces:
the unmatched `id2` entry has been dropped. -/
def c2p : WireParams :=
  { model := "m", tools := none, tool_choice := none, reasoning_effort := none,
    web_search_options := none,
    messages :=
      [ .assistant "a"
          (some [{ id := "id1", arguments := "\x7b\x7d", name := "f",
                   type := "function" }]),
        .tool "res" "id1" ],
    max_tokens := none, temperature := none, top_p := none,
    frequency_penalty := none, presence_penalty := none, logit_bias := none,
    prediction := none }

/-- Witness for `buildWireRequest_tool_call_integrity` at `c2req`: the
surviving tool-call list is non-empty and its entry `id1` appears among
the payload's tool message ids. -/
theorem buildWireRequest_tool_call_integrity_witness :
    buildChatCompletionCreateParams c2req false = .ok c2p ∧
    ([{ id := "id1", arguments := "\x7b\x7d", name := "f", type := "function" }] :
        List WireToolCall) ≠ [] ∧
    "id1" ∈ wireToolIds c2p.messages :=
  ⟨rfl,
    (buildWireRequest_tool_call_integrity c2req false c2p rfl
      (.assistant "a"
        (some [{ id := "id1", arguments := "\x7b\x7d", name := "f",
                 type := "function" }]))
      (by simp [c2p]) "a" _ rfl).1,
    (buildWireRequest_tool_call_integrity c2req false c2p rfl
      (.assistant "a"
        (some [{ id := "id1", arguments := "\x7b\x7d", name := "f",
                 type := "function" }]))
      (by simp [c2p]) "a" _ rfl).2
      { id := "id1", arguments := "\x7b\x7d", name := "f", type := "function" }
      (by simp)⟩

/-- The three attachment steps before the extra-body handling never
touch `tools`, `tool_choice` or `extra_body`. -/
theorem attachPre_tools (params : WireParams) (request : LLMRequest) :
    (attachReasoningObj (attachThinkingConfig (attachThinking params request) request)
        request).tools = params.tools ∧
    (attachReasoningObj (attachThinkingConfig (attachThinking params request) request)
        request).tool_choice = params.tool_choice ∧
    (attachReasoningObj (attachThinkingConfig (attachThinking params request) request)
        request).extra_body = params.extra_body := by
  obtain h1 | ⟨v1, h1⟩ := attachThinking_cases params request <;>
  obtain h2 | ⟨v2, h2⟩ :=
    attachThinkingConfig_cases (attachThinking params request) request <;>
  obtain h3 | ⟨v3, h3⟩ :=
    attachReasoningObj_cases
      (attachThinkingConfig (attachThinking params request) request) request <;>
  rw [h3, h2, h1] <;> exact ⟨rfl, rfl, rfl⟩

/-- C6: when the extra-body bag carries a `tools` array, the built
payload's `tools` is exactly that array, its `tool_choice` key is
removed, and the remaining bag keys are attached verbatim under the
payload's extra-body key exactly when there is at least one. -/
theorem vendor_extension_tools_override (request : LLMRequest) (stream : Bool)
    (p : WireParams) (eb : ExtraBody) (xs : List JValue)
    (hb : request.extra_body = some eb) (ht : eb.tools = some (.arr xs))
    (h : buildChatCompletionCreateParams request stream = .ok p) :
    p.tools = some xs ∧ p.tool_choice = none ∧
    p.extra_body = (if eb.other.length > 0 then some eb.other else none) := by
  obtain ⟨ms, -, rfl⟩ := (build_ok_iff request stream p).mp h
  obtain ⟨-, -, hqe⟩ :=
    attachPre_tools
      (baseParams request stream (ms.map (repairToolCalls (wireToolIds ms)))) request
  simp only [attachVendorExtensions, attachExtraBody, hb]
  by_cases ho : eb.other.length > 0
  · simp only [ho, if_true, overrideTools, ht]
    exact ⟨trivial, trivial, trivial⟩
  · simp only [ho, if_false, overrideTools, ht]
    refine ⟨trivial, trivial, ?_⟩
    rw [hqe]
    rfl

/-- Concrete request for the C6 witness: a canonical tool list and
`tool_choice`, plus an extra-body bag with its own `tools` array and one
further key. -/
def c6req : LLMRequest :=
  { model := "m", messages := [], tools := some [.str "canon"],
    tool_choice := some (.str "auto"),
    extra_body := some { tools := some (.arr [.str "ext"]),
                         other := [("foo", .num 2)] } }

/-- The payload `buildChatCompletionCreateParams c6req false` produces:
extension tools replace the canonical list, `tool_choice` is gone, and
the remaining bag key is kept under `extra_body`. -/
def c6p : WireParams :=
  { model := "m", tools := some [.str "ext"], tool_choice := none,
    reasoning_effort := none, web_search_options := none, messages := [],
    max_tokens := none, temperature := none, top_p := none,
    frequency_penalty := none, presence_penalty := none, logit_bias := none,
    prediction := none, extra_body := some [("foo", .num 2)] }

/-- Witness for `vendor_extension_tools_override` at `c6req`. -/
theorem vendor_extension_tools_override_witness :
    buildChatCompletionCreateParams c6req false = .ok c6p ∧
    c6p.tools = some [.str "ext"] ∧ c6p.tool_choice = none ∧
    c6p.extra_body = some [("foo", .num 2)] :=
  ⟨rfl,
    (vendor_extension_tools_override c6req false c6p
      { tools := some (.arr [.str "ext"]), other := [("foo", .num 2)] }
      [.str "ext"] rfl rfl rfl).1,
    (vendor_extension_tools_override c6req false c6p
      { tools := some (.arr [.str "ext"]), other := [("foo", .num 2)] }
      [.str "ext"] rfl rfl rfl).2.1,
    ((vendor_extension_tools_override c6req false c6p
      { tools := some (.arr [.str "ext"]), other := [("foo", .num 2)] }
      [.str "ext"] rfl rfl rfl).2.2).trans (by norm_num)⟩

/-- Whether an `Except` computation succeeded (thrown no error). -/
def exceptIsOk {ε α : Type _} : Except ε α → Bool
  | .ok _ => true
  | .error _ => false

/-- Success of `mapM` over `Except` implies success on every element. -/
theorem mapM_ok_forall {α β ε : Type} (f : α → Except ε β) :
    ∀ (l : List α) (rs : List β), l.mapM f = .ok rs →
      ∀ a ∈ l, ∃ b, f a = .ok b := by
  intro l
  induction l with
  | nil =>
    intro rs h a ha
    exact absurd ha (List.not_mem_nil a)
  | cons x xs ih =>
    intro rs h a ha
    rw [List.mapM_cons] at h
    cases hfx : f x with
    | error e =>
      rw [hfx] at h
      simp [bind, Except.bind] at h
    | ok y =>
      rw [hfx] at h
      cases hxs : xs.mapM f with
      | error e =>
        rw [hxs] at h
        simp [bind, Except.bind] at h
      | ok ys =>
        rcases List.mem_cons.mp ha with rfl | ha2
        · exact ⟨y, hfx⟩
        · exact ih ys hxs a ha2

/-- A failing element makes the whole `mapM` fail. -/
theorem mapM_error_of_elem {α β ε : Type} (f : α → Except ε β) (l : List α)
    (a : α) (ha : a ∈ l) (e : ε) (hfa : f a = .error e) :
    ∃ e2, l.mapM f = .error e2 := by
  cases h : l.mapM f with
  | error e2 => exact ⟨e2, rfl⟩
  | ok rs =>
    obtain ⟨b, hb⟩ := mapM_ok_forall f l rs h a ha
    rw [hfa] at hb
    cases hb

/-- A failing message translation makes the whole build fail with that
same kind of error result. -/
theorem build_error_of_mapM_error (request : LLMRequest) (stream : Bool)
    (e : ValidationError)
    (h : request.messages.mapM parseRequestMessage = .error e) :
    buildChatCompletionCreateParams request stream = .error e := by
  unfold buildChatCompletionCreateParams
  simp only [bind, Except.bind]
  rw [h]

/-- C8: a request containing an assistant message whose content is a
content-part sequence, or a system message whose content is a
content-part sequence, makes `buildChatCompletionCreateParams` fail
(with a `ValidationError`, the error type of the build); translating
well-formed (string-content) assistant and system messages never
fails. -/
theorem malformed_message_validation (request : LLMRequest) (stream : Bool) :
    (((∃ l tcs, RequestMessage.assistant (.parts l) tcs ∈ request.messages) ∨
      (∃ l, RequestMessage.system (.parts l) ∈ request.messages)) →
      exceptIsOk (buildChatCompletionCreateParams request stream) = false) ∧
    (∀ s tcs,
      exceptIsOk (parseRequestMessage (.assistant (.str s) tcs)) = true) ∧
    (∀ s, exceptIsOk (parseRequestMessage (.system (.str s))) = true) := by
  refine ⟨?_, ?_, ?_⟩
  · rintro (⟨l, tcs, hm⟩ | ⟨l, hm⟩)
    · obtain ⟨e2, he2⟩ := mapM_error_of_elem parseRequestMessage request.messages
        _ hm ValidationError.assistantContentNotString rfl
      rw [build_error_of_mapM_error request stream e2 he2]
      rfl
    · obtain ⟨e2, he2⟩ := mapM_error_of_elem parseRequestMessage request.messages
        _ hm ValidationError.systemContentNotString rfl
      rw [build_error_of_mapM_error request stream e2 he2]
      rfl
  · intro s tcs
    rfl
  · intro s
    rfl

/-- Witness for `malformed_message_validation`: a request whose only
message is an assistant message carrying a content-part array fails to
build, and parsing a well-formed assistant message succeeds. -/
theorem malformed_message_validation_witness :
    exceptIsOk (buildChatCompletionCreateParams
        { model := "m", messages := [.assistant (.parts []) none] } false) = false ∧
    exceptIsOk (parseRequestMessage (.assistant (.str "ok") none)) = true :=
  ⟨(malformed_message_validation
      { model := "m", messages := [.assistant (.parts []) none] } false).1
      (.inl ⟨[], none, List.mem_singleton.mpr rfl⟩),
   (malformed_message_validation
      { model := "m", messages := [.assistant (.parts []) none] } false).2.1 "ok" none⟩

/-!
## Claims about the adapter: response parsing
-/

/-- C9: a streamed chunk whose choice has `finish_reason` absent or null
parses to a fragment choice whose `finish_reason` field — always present
by the `NullOr` type, since line 500 always assigns it — holds the value
null. -/
theorem fragment_finish_reason_explicit_null (chunk : ChatCompletionChunk)
    (choice : ChunkChoice)
    (h : choice.finish_reason = none ∨ choice.finish_reason = some none) :
    (parseStreamingResponseChunk chunk).choices
      = chunk.choices.map parseChunkChoice ∧
    (parseChunkChoice choice).finish_reason = NullOr.null := by
  refine ⟨rfl, ?_⟩
  rcases h with h | h <;> simp [parseChunkChoice, h]

/-- Witness for `fragment_finish_reason_explicit_null` at a concrete
chunk whose single choice carries `finish_reason: null`. -/
theorem fragment_finish_reason_explicit_null_witness :
    (parseChunkChoice { finish_reason := some none, delta := {} }).finish_reason
      = NullOr.null :=
  (fragment_finish_reason_explicit_null
    { id := "i", choices := [{ finish_reason := some none, delta := {} }],
      created := 0, model := "m" }
    { finish_reason := some none, delta := {} } (.inr rfl)).2

/-- C10: an assistant message's tool calls are emitted with `id` and
`name` passed through, wire `type` always `"function"`, and `arguments`
defaulted to the string "\x7b\x7d" when absent or null and kept
unchanged when present; an absent `tool_calls` stays absent. -/
theorem tool_call_arguments_default (s : String) (tcs : List ReqToolCall) :
    parseRequestMessage (.assistant (.str s) (some tcs))
      = .ok (.assistant s (some (tcs.map toolCallParam))) ∧
    parseRequestMessage (.assistant (.str s) none) = .ok (.assistant s none) ∧
    ∀ tc ∈ tcs,
      (toolCallParam tc).id = tc.id ∧
      (toolCallParam tc).name = tc.name ∧
      (toolCallParam tc).type = "function" ∧
      (tc.arguments = none → (toolCallParam tc).arguments = "\x7b\x7d") ∧
      (tc.arguments = some none → (toolCallParam tc).arguments = "\x7b\x7d") ∧
      (∀ a, tc.arguments = some (some a) → (toolCallParam tc).arguments = a) := by
  refine ⟨rfl, rfl, ?_⟩
  intro tc htc
  refine ⟨rfl, rfl, rfl, ?_, ?_, ?_⟩
  · intro ha
    simp [toolCallParam, ha]
  · intro ha
    simp [toolCallParam, ha]
  · intro a ha
    simp [toolCallParam, ha]

/-- Witness for `tool_call_arguments_default`: one tool call without
arguments (defaulted) and one with (kept). -/
theorem tool_call_arguments_default_witness :
    parseRequestMessage (.assistant (.str "c")
        (some [{ id := "i", name := "n" },
               { id := "j", name := "m", arguments := some (some "args") }]))
      = .ok (.assistant "c"
          (some [{ id := "i", arguments := "\x7b\x7d", name := "n",
                   type := "function" },
                 { id := "j", arguments := "args", name := "m",
                   type := "function" }])) ∧
    (toolCallParam { id := "i", name := "n" }).arguments = "\x7b\x7d" ∧
    (toolCallParam
        { id := "j", name := "m", arguments := some (some "args") }).arguments
      = "args" :=
  ⟨(tool_call_arguments_default "c"
      [{ id := "i", name := "n" },
       { id := "j", name := "m", arguments := some (some "args") }]).1,
   ((tool_call_arguments_default "c"
      [{ id := "i", name := "n" },
       { id := "j", name := "m", arguments := some (some "args") }]).2.2
      { id := "i", name := "n" } (by simp)).2.2.2.1 rfl,
   ((tool_call_arguments_default "c"
      [{ id := "i", name := "n" },
       { id := "j", name := "m", arguments := some (some "args") }]).2.2
      { id := "j", name := "m", arguments := some (some "args") }
      (by simp)).2.2.2.2.2 "args" rfl⟩

/-- C5 counterexample: the claim says extraction returns the first
NON-EMPTY match, so a source carrying an empty-string
`reasoning_content` and a non-empty `reasoning` string would have to
yield "x"; the code (line 157) returns the first STRING-TYPED match and
yields the empty string. -/
theorem extractReasoning_empty_string_precedence_cex :
    extractReasoningContent
        { reasoning_content := some (.str ""), reasoning := some (.str "x") }
      = some "" ∧ (some "" : Option String) ≠ some "x" := by
  exact ⟨rfl, by decide⟩

/-- The value of a present, string-typed field
(`typeof x === 'string'`), else `none`. -/
def strVal : Option JValue → Option String
  | some (.str s) => some s
  | _ => none

/-- A non-string `reasoning_content` field falls through to the next
probe. -/
theorem extract_rc_none (rc r rd : Option JValue) (h : strVal rc = none) :
    extractReasoningContent ⟨rc, r, rd⟩ = extractReasoningContent ⟨none, r, rd⟩ := by
  rcases rc with - | v
  · rfl
  · cases v <;> first | rfl | (exfalso; simp [strVal] at h)

/-- A non-string `reasoning` field falls through to the details probe. -/
theorem extract_r_none (r rd : Option JValue) (h : strVal r = none) :
    extractReasoningContent ⟨none, r, rd⟩
      = extractReasoningContent ⟨none, none, rd⟩ := by
  rcases r with - | v
  · rfl
  · cases v <;> first | rfl | (exfalso; simp [strVal] at h)

/-- Value of the details probe on an actual array. -/
theorem extract_details (ds : List JValue) :
    extractReasoningContent ⟨none, none, some (.arr ds)⟩ =
      (if ((ds.filterMap extractDetailPart).filter fun part => part ≠ "").length > 0
       then some (String.intercalate "\n"
         ((ds.filterMap extractDetailPart).filter fun part => part ≠ ""))
       else none) := rfl

/-- With no string field and no details array nothing is extracted. -/
theorem extract_rd_not_arr (rd : Option JValue)
    (h : ∀ ds, rd ≠ some (.arr ds)) :
    extractReasoningContent ⟨none, none, rd⟩ = none := by
  rcases rd with - | v
  · rfl
  · cases v <;> first | rfl | (exact absurd rfl (h _))

/-- C5 (amended): extraction returns the first string-typed match in
order — the `reasoning_content` field, then the `reasoning` field (each
returned even when it is the empty string) — else, when
`reasoning_details` is an array, the newline-joined concatenation in
array order of the non-empty per-entry extractions provided at least one
survives; otherwise nothing.  In particular a source carrying both a
string `reasoning` and a `reasoning_details` array yields the raw
string, not the concatenation. -/
theorem extractReasoning_first_string_match (source : RSource) :
    (∀ s, source.reasoning_content = some (.str s) →
      extractReasoningContent source = some s) ∧
    (strVal source.reasoning_content = none →
      ∀ s, source.reasoning = some (.str s) →
        extractReasoningContent source = some s) ∧
    (strVal source.reasoning_content = none → strVal source.reasoning = none →
      ∀ ds, source.reasoning_details = some (.arr ds) →
        (((ds.filterMap extractDetailPart).filter fun part => part ≠ "") ≠ [] →
          extractReasoningContent source
            = some (String.intercalate "\n"
                ((ds.filterMap extractDetailPart).filter fun part => part ≠ ""))) ∧
        (((ds.filterMap extractDetailPart).filter fun part => part ≠ "") = [] →
          extractReasoningContent source = none)) ∧
    (strVal source.reasoning_content = none → strVal source.reasoning = none →
      (∀ ds, source.reasoning_details ≠ some (.arr ds)) →
      extractReasoningContent source = none) := by
  obtain ⟨rc, r, rd⟩ := source
  refine ⟨?_, ?_, ?_, ?_⟩
  · rintro s rfl
    rfl
  · rintro h1 s rfl
    rw [extract_rc_none rc _ rd h1]
    rfl
  · rintro h1 h2 ds rfl
    rw [extract_rc_none rc r _ h1, extract_r_none r _ h2, extract_details ds]
    constructor
    · intro hne
      rw [if_pos]
      exact Nat.pos_of_ne_zero fun h0 => hne (List.length_eq_zero.mp h0)
    · intro heq
      rw [heq]
      simp
  · intro h1 h2 h3
    rw [extract_rc_none rc r rd h1, extract_r_none r rd h2,
      extract_rd_not_arr rd h3]

/-- Witness for `extractReasoning_first_string_match`: a source with
both a raw `reasoning` string and a details array yields the raw
string. -/
theorem extractReasoning_first_string_match_witness :
    extractReasoningContent
        { reasoning := some (.str "x"),
          reasoning_details := some (.arr
            [.obj [("type", .str "reasoning.text"), ("text", .str "detail")]]) }
      = some "x" :=
  (extractReasoning_first_string_match
    { reasoning := some (.str "x"),
      reasoning_details := some (.arr
        [.obj [("type", .str "reasoning.text"), ("text", .str "detail")]]) }).2.1
    rfl "x" rfl
